import Mathlib

/-!
Verification of the CPU scheduler simulator (cpu-scheduler-gui).

The repository ships one source file, `cpu-scheduler-gui.py`, holding the
`SchedulerGUI` class.  The scheduling algorithms, the multi-core dispatcher,
the metrics calculator, the `Process` class and the algorithm selector live in
sibling modules (`cpu_scheduler_algorithms`, `ai_scheduler`, ...) that are
imported by the GUI but are not part of this repository snapshot; those parts
are modelled from the specification, and every such definition carries a doc
comment saying so.  Everything else is a direct shallow embedding of the
Python code in `src/cpu-scheduler-gui.py`.
-/

namespace CpuScheduler

/-- Error taxonomy of the specification (section 7): `InvalidInput` for bad
process fields, `InvalidConfiguration` for bad quantum or core count,
`SandboxValidationError` and `SandboxExecutionError` for the custom-code
sandbox.  In the Python code these surface as `ValueError` or generic
exceptions caught at the GUI boundary; the taxonomy names the reason. -/
inductive SchedError where
  | InvalidInput
  | InvalidConfiguration
  | SandboxValidationError
  | SandboxExecutionError
deriving DecidableEq, Repr

/-- Decidable equality on `Except`, so concrete runs can be checked by
evaluation. -/
instance {ε α : Type} [DecidableEq ε] [DecidableEq α] :
    DecidableEq (Except ε α) := fun a b =>
  match a, b with
  | .ok x, .ok y =>
    if h : x = y then .isTrue (by rw [h])
    else .isFalse (fun hc => h (Except.ok.inj hc))
  | .error x, .error y =>
    if h : x = y then .isTrue (by rw [h])
    else .isFalse (fun hc => h (Except.error.inj hc))
  | .ok _, .error _ => .isFalse (fun hc => Except.noConfusion hc)
  | .error _, .ok _ => .isFalse (fun hc => Except.noConfusion hc)

/-- The Process record (spec section 3): caller-supplied `pid`,
`arrival_time`, `burst_time`, `priority`, plus the simulation-derived fields.
`start_time` and `end_time` are unset (`none`) until the simulation sets
them. -/
structure Process where
  pid : String
  arrival_time : Int
  burst_time : Int
  priority : Int
  remaining_time : Int
  start_time : Option Int
  end_time : Option Int
  waiting_time : Int
  turnaround_time : Int
deriving DecidableEq, Repr

/-- Modelled from the spec: the `Process` constructor lives in
`cpu_scheduler_algorithms`, which is not under `src/`.  Section 4.1:
constructing a Process fails with `InvalidInput` if `arrival_time < 0` or
`burst_time ≤ 0`; otherwise the derived fields start unset, with
`remaining_time` mirroring `burst_time`. -/
def Process.make (pid : String) (arrival burst priority : Int) :
    Except SchedError Process :=
  if arrival < 0 ∨ burst ≤ 0 then .error .InvalidInput
  else .ok { pid := pid, arrival_time := arrival, burst_time := burst,
             priority := priority, remaining_time := burst,
             start_time := none, end_time := none,
             waiting_time := 0, turnaround_time := 0 }

/-- Validity invariant on the immutable inputs of a Process (spec 4.1). -/
def ValidProcess (p : Process) : Prop :=
  0 ≤ p.arrival_time ∧ 0 < p.burst_time

instance (p : Process) : Decidable (ValidProcess p) := by
  unfold ValidProcess; infer_instance

/-- A timeline segment (spec section 3): `(core_id, pid, interval_start,
interval_end)`. -/
structure Segment where
  core_id : Nat
  pid : String
  interval_start : Int
  interval_end : Int
deriving DecidableEq, Repr

/-- A finalized copy of a process that ran without interruption gaps from
`s` to `e`: start and end times set, `remaining_time` consumed,
`turnaround_time = end − arrival`, `waiting_time = turnaround − burst`
(spec section 3). -/
def finalizeProcess (p : Process) (s e : Int) : Process :=
  { p with start_time := some s, end_time := some e, remaining_time := 0,
           turnaround_time := e - p.arrival_time,
           waiting_time := e - p.arrival_time - p.burst_time }

/-- Strict lexicographic comparison on the ranking keys used by the
non-preemptive schedulers: primary key, then arrival, then input index. -/
def keyLt (a b : Int × Int × Nat) : Bool :=
  a.1 < b.1 ∨ (a.1 = b.1 ∧ (a.2.1 < b.2.1 ∨ (a.2.1 = b.2.1 ∧ a.2.2 < b.2.2)))

/-- First element of the list minimising the key, scanning left to right and
replacing only on strictly smaller key. -/
def minByKey (key : Nat × Process → Int × Int × Nat) :
    List (Nat × Process) → Option (Nat × Process)
  | [] => none
  | x :: xs =>
    match minByKey key xs with
    | none => some x
    | some y => if keyLt (key y) (key x) then some y else some x

/-- Earliest arrival time among pending processes (used to advance the clock
over idle gaps). -/
def minArrival : List (Nat × Process) → Int
  | [] => 0
  | [x] => x.2.arrival_time
  | x :: xs => min x.2.arrival_time (minArrival xs)

/-- Modelled from the spec: core loop shared by the non-preemptive
single-core schedulers (`fcfs_scheduler`, `sjf_non_preemptive`,
`priority_non_preemptive` in `cpu_scheduler_algorithms`, not under `src/`).
Spec 4.2: at each idle moment, among ready processes pick the minimum of the
ranking key (ties by arrival then input order); if none is ready, advance the
clock to the next arrival; once dispatched a process runs to completion.
`fuel` bounds the recursion; each completion or idle jump consumes one unit. -/
def npSchedule (key : Nat × Process → Int × Int × Nat) :
    Nat → Int → List (Nat × Process) →
    List (Nat × Process) × List Segment
  | 0, _, _ => ([], [])
  | _ + 1, _, [] => ([], [])
  | fuel + 1, t, pending =>
    let ready := pending.filter (fun ip => ip.2.arrival_time ≤ t)
    match minByKey key ready with
    | none => npSchedule key fuel (minArrival pending) pending
    | some (i, p) =>
      let e := t + p.burst_time
      let rest := pending.filter (fun ip => ip.1 ≠ i)
      let (fins, segs) := npSchedule key fuel e rest
      ((i, finalizeProcess p t e) :: fins,
       { core_id := 0, pid := p.pid, interval_start := t,
         interval_end := e } :: segs)

/-- Result type of every single-core scheduling call (spec 4.2): finalized
processes, a human-readable algorithm name, and the timeline. -/
abbrev SchedResult := List Process × String × List Segment

/-- Modelled from the spec: wrapper turning the non-preemptive core loop into
a scheduler of the common contract.  The finalized processes are returned in
original input order (spec 4.3 merge contract). -/
def npScheduler (name : String) (key : Nat × Process → Int × Int × Nat)
    (ps : List Process) : Except SchedError SchedResult :=
  let (fins, segs) := npSchedule key (2 * ps.length + 1) 0 ps.enum
  .ok ((List.range ps.length).filterMap
        (fun i => (fins.find? (fun f => f.1 = i)).map (fun f => f.2)),
       name, segs)

/-- Modelled from the spec: `fcfs_scheduler` (in `cpu_scheduler_algorithms`,
not under `src/`).  Spec 4.2: dispatch order is ascending `arrival_time`,
ties broken by original input order, non-preemptive. -/
def fcfs_scheduler (ps : List Process) : Except SchedError SchedResult :=
  npScheduler "FCFS" (fun ip => (ip.2.arrival_time, ip.2.arrival_time, ip.1)) ps

/-- Modelled from the spec: `sjf_non_preemptive` (not under `src/`).
Spec 4.2: among ready processes pick minimum `burst_time`; ties by arrival
then input order. -/
def sjf_non_preemptive (ps : List Process) : Except SchedError SchedResult :=
  npScheduler "SJF (Non-Preemptive)"
    (fun ip => (ip.2.burst_time, ip.2.arrival_time, ip.1)) ps

/-- Modelled from the spec: `priority_non_preemptive` (not under `src/`).
Spec 4.2: ranking key is `priority` ascending; ties by arrival then input
order. -/
def priority_non_preemptive (ps : List Process) :
    Except SchedError SchedResult :=
  npScheduler "Priority (Non-Preemptive)"
    (fun ip => (ip.2.priority, ip.2.arrival_time, ip.1)) ps

/-- Working state of one process inside a preemptive or queue-based
scheduling run: input index, the original record, remaining ticks, the
first-dispatch and completion times, and (for the queue engines) whether the
process has been admitted to a ready queue yet. -/
structure RunItem where
  idx : Nat
  proc : Process
  rem : Int
  fstart : Option Int
  fend : Option Int
  adm : Bool
deriving DecidableEq, Repr

/-- Earliest arrival among live run items. -/
def minArrivalItems : List RunItem → Int
  | [] => 0
  | [x] => x.proc.arrival_time
  | x :: xs => min x.proc.arrival_time (minArrivalItems xs)

/-- One executed tick: which pid ran at which time. -/
abbrev Tick := String × Int

/-- Coalesce consecutive single-tick executions of the same pid into
maximal timeline segments (accumulator holds segments in reverse). -/
def coalesceTicks : List Segment → List Tick → List Segment
  | acc, [] => acc.reverse
  | [], (pid, t) :: rest =>
    coalesceTicks [{ core_id := 0, pid := pid, interval_start := t,
                     interval_end := t + 1 }] rest
  | s :: acc, (pid, t) :: rest =>
    if s.pid = pid ∧ s.interval_end = t then
      coalesceTicks ({ s with interval_end := t + 1 } :: acc) rest
    else
      coalesceTicks ({ core_id := 0, pid := pid, interval_start := t,
                       interval_end := t + 1 } :: s :: acc) rest

/-- Read back a finalized Process from a run item: derived fields per spec
section 3 (`turnaround = end − arrival`, `waiting = turnaround − burst`). -/
def finishItem (it : RunItem) : Process :=
  match it.fend with
  | some e =>
    { it.proc with start_time := it.fstart, end_time := some e,
                   remaining_time := it.rem,
                   turnaround_time := e - it.proc.arrival_time,
                   waiting_time := e - it.proc.arrival_time
                                     - it.proc.burst_time }
  | none => { it.proc with start_time := it.fstart, remaining_time := it.rem }

/-- Sum of the remaining burst ticks, as a fuel bound. -/
def totalRem (items : List RunItem) : Nat :=
  items.foldl (fun a it => a + it.rem.toNat) 0

/-- Ready items at time `t`: arrived and not yet completed. -/
def readyAt (t : Int) (items : List RunItem) : List RunItem :=
  items.filter (fun it => it.proc.arrival_time ≤ t ∧ 0 < it.rem)

/-- Live items: not yet completed. -/
def liveItems (items : List RunItem) : List RunItem :=
  items.filter (fun it => 0 < it.rem)

/-- Best-ranked ready item: minimum of `(rank, arrival, index)` scanning left
to right (first occurrence wins on full ties). -/
def bestReady (rank : Process → Int → Int) :
    List RunItem → Option RunItem
  | [] => none
  | x :: xs =>
    match bestReady rank xs with
    | none => some x
    | some y =>
      if keyLt (rank y.proc y.rem, y.proc.arrival_time, y.idx)
               (rank x.proc x.rem, x.proc.arrival_time, x.idx)
      then some y else some x

/-- Run item `i` for one tick at time `t`. -/
def runOneTick (t : Int) (i : Nat) (items : List RunItem) : List RunItem :=
  items.map (fun it =>
    if it.idx = i then
      { it with rem := it.rem - 1,
                fstart := some (it.fstart.getD t),
                fend := if it.rem - 1 = 0 then some (t + 1) else it.fend }
    else it)

/-- Modelled from the spec: tick-by-tick core loop of the preemptive
single-core schedulers (`sjf_preemptive`, `priority_preemptive` in
`cpu_scheduler_algorithms`, not under `src/`).  Spec 4.2: the ready set is
re-evaluated at every tick; the minimum-rank process runs; on a rank tie the
currently running process keeps control — a newcomer preempts only on a
strictly smaller rank.  `running` is the index of the process that ran in the
previous tick. -/
def pSchedule (rank : Process → Int → Int) :
    Nat → Int → Option Nat → List RunItem → List RunItem × List Tick
  | 0, _, _, items => (items, [])
  | fuel + 1, t, running, items =>
    match liveItems items with
    | [] => (items, [])
    | live =>
      match bestReady rank (readyAt t items) with
      | none => pSchedule rank fuel (minArrivalItems live) none items
      | some best =>
        let chosen : RunItem :=
          match running with
          | none => best
          | some r =>
            match (readyAt t items).find? (fun it => it.idx = r) with
            | none => best
            | some cur =>
              if rank best.proc best.rem < rank cur.proc cur.rem then best
              else cur
        let items1 := runOneTick t chosen.idx items
        let (fins, ticks) :=
          pSchedule rank fuel (t + 1)
            (if chosen.rem - 1 = 0 then none else some chosen.idx) items1
        (fins, (chosen.proc.pid, t) :: ticks)

/-- Modelled from the spec: wrapper turning the preemptive core loop into a
scheduler of the common contract; finalized processes come back in input
order. -/
def pScheduler (name : String) (rank : Process → Int → Int)
    (ps : List Process) : Except SchedError SchedResult :=
  let items := ps.enum.map (fun ip =>
    { idx := ip.1, proc := ip.2, rem := ip.2.burst_time,
      fstart := none, fend := none, adm := false : RunItem })
  let (fins, ticks) :=
    pSchedule rank (2 * totalRem items + ps.length + 2) 0 none items
  .ok (fins.map finishItem, name, coalesceTicks [] ticks)

/-- Modelled from the spec: `sjf_preemptive` (SRTF, not under `src/`).
Spec 4.2: smallest `remaining_time` runs; ties keep the running process. -/
def sjf_preemptive (ps : List Process) : Except SchedError SchedResult :=
  pScheduler "SJF (Preemptive)" (fun _ rem => rem) ps

/-- Modelled from the spec: `priority_preemptive` (not under `src/`).
Spec 4.2: like SRTF with ranking key `priority`; a newcomer preempts only on
strictly lower (more urgent) priority. -/
def priority_preemptive (ps : List Process) : Except SchedError SchedResult :=
  pScheduler "Priority (Preemptive)" (fun p _ => p.priority) ps

/-- Insertion into a list of run items keeping `(arrival, index)` order,
inserting after equal keys (stable). -/
def insertArrIdx (x : RunItem) : List RunItem → List RunItem
  | [] => [x]
  | y :: ys =>
    if y.proc.arrival_time < x.proc.arrival_time ∨
       (y.proc.arrival_time = x.proc.arrival_time ∧ y.idx ≤ x.idx) then
      y :: insertArrIdx x ys
    else x :: y :: ys

/-- Stable sort of run items by `(arrival, index)`. -/
def sortArrIdx (items : List RunItem) : List RunItem :=
  items.foldl (fun acc x => insertArrIdx x acc) []

/-- Append newly admitted indices to the tail of level 0. -/
def pushLevel0 (queues : List (List Nat)) (ids : List Nat) :
    List (List Nat) :=
  match queues with
  | [] => [ids]
  | q0 :: qs => (q0 ++ ids) :: qs

/-- Admit every not-yet-admitted item that has arrived by `t` to the tail of
level 0, in `(arrival, index)` order (spec 4.2: arrivals are enqueued before
a preempted process's re-insertion, FCFS-by-arrival among simultaneous
events). -/
def admitReady (t : Int) (queues : List (List Nat)) (items : List RunItem) :
    List (List Nat) × List RunItem :=
  let newcomers :=
    sortArrIdx (items.filter
      (fun it => it.adm = false ∧ it.proc.arrival_time ≤ t))
  (pushLevel0 queues (newcomers.map (fun it => it.idx)),
   items.map (fun it =>
     if it.adm = false ∧ it.proc.arrival_time ≤ t then
       { it with adm := true }
     else it))

/-- Pop the head of the first nonempty queue, returning its level, the
popped index, and the remaining queues (spec 4.2: strict priority across
levels — level 0 is always serviced first). -/
def popFirst : List (List Nat) → Option (Nat × Nat × List (List Nat))
  | [] => none
  | [] :: qs =>
    (popFirst qs).map (fun r => (r.1 + 1, r.2.1, [] :: r.2.2))
  | (i :: q) :: qs => some (0, i, q :: qs)

/-- Enqueue index `i` at the tail of level `l`. -/
def enqueueAt (l : Nat) (i : Nat) (queues : List (List Nat)) :
    List (List Nat) :=
  queues.set l (queues.getD l [] ++ [i])

/-- Run item `i` for `d` consecutive ticks starting at `t`. -/
def runSlice (t d : Int) (i : Nat) (items : List RunItem) : List RunItem :=
  items.map (fun it =>
    if it.idx = i then
      { it with rem := it.rem - d,
                fstart := some (it.fstart.getD t),
                fend := if it.rem - d ≤ 0 then some (t + d) else it.fend }
    else it)

/-- Modelled from the spec: core loop of the queue-based schedulers
(`rr_scheduler`, `mlfq_scheduler` in `cpu_scheduler_algorithms`, not under
`src/`).  Spec 4.2: multiple FIFO levels with per-level quantum, strict
priority across levels, round-robin within a level; a dispatched process runs
`min(quantum, remaining)` ticks; arrivals during the slice are enqueued at
level 0 before the preempted process is re-inserted; a process exhausting its
quantum is demoted one level, capped at the lowest level.  Round Robin is the
single-level instance (demotion at the lowest level re-enqueues at the tail
of the same FIFO, which is exactly the RR re-insertion rule). -/
def mlfqRun (quanta : List Int) :
    Nat → Int → List (List Nat) → List RunItem →
    List RunItem × List Segment
  | 0, _, _, items => (items, [])
  | fuel + 1, t, queues, items =>
    let (queues1, items1) := admitReady t queues items
    match popFirst queues1 with
    | none =>
      match items1.filter (fun it => it.adm = false) with
      | [] => (items1, [])
      | pending => mlfqRun quanta fuel (minArrivalItems pending) queues1 items1
    | some (lvl, i, queues2) =>
      match items1.find? (fun it => it.idx = i) with
      | none => (items1, [])
      | some it =>
        let q := quanta.getD lvl 1
        let d := min q it.rem
        let items2 := runSlice t d i items1
        let (queues3, items3) := admitReady (t + d) queues2 items2
        let queues4 :=
          if 0 < it.rem - d then
            enqueueAt (min (lvl + 1) (quanta.length - 1)) i queues3
          else queues3
        let (fins, segs) := mlfqRun quanta fuel (t + d) queues4 items3
        (fins, { core_id := 0, pid := it.proc.pid, interval_start := t,
                 interval_end := t + d } :: segs)

/-- Modelled from the spec: shared wrapper of the queue-based schedulers;
finalized processes come back in input order. -/
def mlfqCore (name : String) (quanta : List Int) (ps : List Process) :
    SchedResult :=
  let items := ps.enum.map (fun ip =>
    { idx := ip.1, proc := ip.2, rem := ip.2.burst_time,
      fstart := none, fend := none, adm := false : RunItem })
  let (fins, segs) :=
    mlfqRun quanta (2 * (totalRem items + ps.length) + 2) 0
      (quanta.map (fun _ => [])) items
  (fins.map finishItem, name, segs)

/-- Modelled from the spec: `rr_scheduler` (not under `src/`).  Spec 4.2 and
4.2 failure modes: a single FIFO ready queue with quantum `q`; `quantum ≤ 0`
fails with `InvalidConfiguration`. -/
def rr_scheduler (ps : List Process) (quantum : Int) :
    Except SchedError SchedResult :=
  if quantum ≤ 0 then .error .InvalidConfiguration
  else .ok (mlfqCore "Round Robin" [quantum] ps)

/-- Modelled from the spec: `mlfq_scheduler` (not under `src/`).  Spec 4.2
and failure modes: an ordered sequence of levels each with its own quantum;
any `quantum ≤ 0` fails with `InvalidConfiguration`. -/
def mlfq_scheduler (ps : List Process) (quanta : List Int) :
    Except SchedError SchedResult :=
  if quanta.isEmpty ∨ quanta.any (fun q => q ≤ 0) then
    .error .InvalidConfiguration
  else .ok (mlfqCore "MLFQ" quanta ps)

/-- Run a fallible function over a list, stopping at the first error
(the per-core loop of the dispatcher). -/
def mapExcept {α β : Type} (f : α → Except SchedError β) :
    List α → Except SchedError (List β)
  | [] => .ok []
  | x :: xs =>
    match f x with
    | .error e => .error e
    | .ok y =>
      match mapExcept f xs with
      | .error e => .error e
      | .ok ys => .ok (y :: ys)

/-- Round-robin partition of the input across `n` cores by input order:
process `i` goes to core `i mod n`, preserving relative order (spec 4.3). -/
def partitionRR (ps : List Process) (n : Nat) : List (List Process) :=
  (List.range n).map
    (fun k => (ps.enum.filter (fun ip => ip.1 % n = k)).map (fun ip => ip.2))

/-- Tag every segment of a per-core timeline with its core id. -/
def tagCore (k : Nat) (segs : List Segment) : List Segment :=
  segs.map (fun s => { s with core_id := k })

/-- Modelled from the spec: `multi_core_scheduler` (in
`cpu_scheduler_algorithms`, not under `src/`).  Spec 4.3: `coreCount < 1`
fails with `InvalidConfiguration`; otherwise the input is partitioned
round-robin by input order, each core runs the single-core algorithm
independently, the finalized subsets are merged back in original input order
(each core returns its subset in input order, so transposing and joining the
per-core lists restores the global order) and the per-core timelines are
concatenated tagged with their `core_id`. -/
def multi_core_scheduler (ps : List Process) (cores : Int)
    (alg : List Process → Except SchedError SchedResult) :
    Except SchedError SchedResult :=
  if cores < 1 then .error .InvalidConfiguration
  else
    match mapExcept alg (partitionRR ps cores.toNat) with
    | .error e => .error e
    | .ok results =>
      .ok ((results.map (fun r => r.1)).transpose.flatten,
           ((results.map (fun r => r.2.1)).headD "N/A"),
           (results.enum.map (fun kr => tagCore kr.1 kr.2.2.2)).flatten)

/-- Modelled from the spec: `AIScheduler.predict_best_algorithm` (module
`ai_scheduler`, not under `src/`).  Spec 4.4: a deterministic, side-effect
free rule over burst-time variance and the count of distinct priorities —
mostly-uniform priorities favor Round Robin, highly dispersed bursts favor
preemptive SJF, otherwise non-preemptive Priority.  The exact thresholds are
an implementation detail; here a single distinct priority counts as uniform
and scaled variance `n·Σb² − (Σb)² > 25·n²` (variance above 25) counts as
highly dispersed.  A pure function of the process statistics. -/
def predict_best_algorithm (ps : List Process) : String :=
  let n : Int := ps.length
  let sb := (ps.map (fun p => p.burst_time)).sum
  let sb2 := (ps.map (fun p => p.burst_time * p.burst_time)).sum
  let distinct := ((ps.map (fun p => p.priority)).dedup).length
  if distinct ≤ 1 then "RR"
  else if 25 * n * n < n * sb2 - sb * sb then "SJF-P"
  else "PR-NP"

/-- Modelled from the spec: `intelligent_scheduler` (not under `src/`).
Spec 4.4: chooses via the selector, runs the chosen built-in algorithm and
reports the chosen identifier alongside its own name. -/
def intelligent_scheduler (ps : List Process) (quantum : Int) :
    Except SchedError SchedResult :=
  let tag := predict_best_algorithm ps
  let r :=
    if tag = "RR" then rr_scheduler ps quantum
    else if tag = "SJF-P" then sjf_preemptive ps
    else priority_non_preemptive ps
  r.map (fun x => (x.1, "Intelligent (" ++ tag ++ ")", x.2.2))

/-- Smallest arrival time in a finalized process list (0 on empty input). -/
def minArrOf : List Process → Int
  | [] => 0
  | p :: ps => ps.foldl (fun a q => min a q.arrival_time) p.arrival_time

/-- Largest completion time in a finalized process list (0 on empty input);
an unset `end_time` counts as 0. -/
def maxEndOf : List Process → Int
  | [] => 0
  | p :: ps => ps.foldl (fun a q => max a (q.end_time.getD 0)) (p.end_time.getD 0)

/-- Modelled from the spec: makespan (spec 4.6):
`max(end_time) − min(arrival_time)`. -/
def makespan (ps : List Process) : Int :=
  maxEndOf ps - minArrOf ps

/-- Modelled from the spec: `calculate_metrics` (imported from the scheduling
module, not under `src/`).  Spec 4.6: mean waiting time, mean turnaround
time, `cpu_utilization = 100·Σburst/makespan` and
`throughput = count/makespan`, each 0 when the makespan is 0 (empty input).
Computed here over exact rationals; the Python code displays floats of the
same quantities. -/
def calculate_metrics (ps : List Process) : ℚ × ℚ × ℚ × ℚ :=
  match ps with
  | [] => (0, 0, 0, 0)
  | _ :: _ =>
    let n : ℚ := (ps.length : Int)
    let avgW : ℚ := (((ps.map (fun p => p.waiting_time)).sum : Int) : ℚ) / n
    let avgT : ℚ :=
      (((ps.map (fun p => p.turnaround_time)).sum : Int) : ℚ) / n
    let mk : ℚ := ((makespan ps : Int) : ℚ)
    let util : ℚ :=
      if mk = 0 then 0
      else 100 * (((ps.map (fun p => p.burst_time)).sum : Int) : ℚ) / mk
    let thr : ℚ := if mk = 0 then 0 else n / mk
    (avgW, avgT, util, thr)

/-- The MLFQ level quanta the GUI passes (src line 386):
`[quantum, quantum * 2, quantum * 4]`. -/
def mlfqLevels (quantum : Int) : List Int :=
  [quantum, quantum * 2, quantum * 4]

/-- Shallow embedding of `SchedulerGUI.run_algorithm` (src lines 372-388):
dispatch by algorithm tag to the multi-core scheduler instantiated with the
chosen single-core algorithm; any unknown tag falls through to the
intelligent scheduler (the trailing `else`). -/
def run_algorithm (num_cores : Int) (algo : String) (ps : List Process)
    (quantum : Int) : Except SchedError SchedResult :=
  if algo = "FCFS" then multi_core_scheduler ps num_cores fcfs_scheduler
  else if algo = "SJF-NP" then
    multi_core_scheduler ps num_cores sjf_non_preemptive
  else if algo = "SJF-P" then
    multi_core_scheduler ps num_cores sjf_preemptive
  else if algo = "RR" then
    multi_core_scheduler ps num_cores (fun p => rr_scheduler p quantum)
  else if algo = "PR-NP" then
    multi_core_scheduler ps num_cores priority_non_preemptive
  else if algo = "PR-P" then
    multi_core_scheduler ps num_cores priority_preemptive
  else if algo = "MLFQ" then
    multi_core_scheduler ps num_cores
      (fun p => mlfq_scheduler p (mlfqLevels quantum))
  else
    multi_core_scheduler ps num_cores (fun p => intelligent_scheduler p quantum)

/-- Abstraction of a custom-code source text for the exec model: the
top-level bindings that executing the text defines (name-indexed scheduling
functions of the built-in contract) and whether executing the text itself
raises (syntax error or top-level raise).  A custom function may itself fail
at call time, modelled by its `Except` result. -/
structure Submission where
  defs : List (String × (List Process → Int → Except SchedError SchedResult))
  raisesOnExec : Bool

/-- Shallow embedding of `SchedulerGUI.run_custom_algorithm` (src lines
390-393): builds `local_vars` from the call arguments, execs the code with
the host globals and this locals dict, then calls
`local_vars.get("custom_scheduler", default)(processes, quantum)` where the
default returns `(processes, "Custom", [])` untouched.  A raise during exec
or inside the custom function propagates to the caller (it is only caught by
the generic handler in `run_simulation` / `start_step_mode`). -/
def run_custom_algorithm (code : Submission) (processes : List Process)
    (quantum : Int) : Except SchedError SchedResult :=
  if code.raisesOnExec then .error .SandboxExecutionError
  else
    match code.defs.find? (fun d => d.1 = "custom_scheduler") with
    | some d => d.2 processes quantum
    | none => .ok (processes, "Custom", [])

/-- Shallow embedding of `SchedulerGUI.test_custom_code` (src lines 312-323):
execs the code with `local_vars = {"processes": [], "quantum": 2}` written as
a fresh dict, raises `ValueError` (the spec's `SandboxValidationError`) when
no `custom_scheduler` was defined, and catches every exception, reporting it
as a validation failure.  The entry point itself is never invoked here. -/
def test_custom_code (code : Submission) : Except SchedError Unit :=
  if code.raisesOnExec then .error .SandboxValidationError
  else if (code.defs.find? (fun d => d.1 = "custom_scheduler")).isSome then
    .ok ()
  else .error .SandboxValidationError

/-- Python values appearing in the locals dict handed to `exec`. -/
inductive PyVal where
  | int : Int → PyVal
  | procList : List Process → PyVal
deriving DecidableEq, Repr

/-- The two namespaces handed to a Python `exec` call: the names bound in the
globals mapping, and the fresh locals dict with its values. -/
structure ExecEnv where
  globalsNames : List String
  localsDict : List (String × PyVal)
deriving DecidableEq, Repr

/-- Module-level names of `cpu-scheduler-gui.py` visible through the
`globals()` mapping that both sandbox paths pass to `exec` (src lines 4-26):
the imported GUI toolkit, `random`, the file-system-capable `json`,
`filedialog` and `logging`, the collaborator classes, and the `SchedulerGUI`
class itself.  Only names literally visible in the source file are listed;
the star import of `cpu_scheduler_algorithms` and the `__builtins__` mapping
CPython inserts add further host bindings on top of these. -/
def hostModuleGlobals : List String :=
  ["tk", "ttk", "messagebox", "filedialog", "Style", "Window", "Frame",
   "Label", "Button", "Entry", "Checkbutton", "Radiobutton", "Scrollbar",
   "Toplevel", "ToolTip", "random", "json", "logging",
   "SchedulerVisualizer", "PerformanceMetrics", "AIScheduler",
   "SchedulerGUI"]

/-- Shallow embedding of the execution-context construction in
`SchedulerGUI.run_custom_algorithm` (src lines 391-392):
`local_vars = {"processes": processes, "quantum": quantum}` is built from the
call arguments alone, and `exec(code, globals(), local_vars)` passes the host
module globals unchanged. -/
def run_custom_algorithm_env (processes : List Process) (quantum : Int) :
    ExecEnv :=
  { globalsNames := hostModuleGlobals,
    localsDict := [("processes", .procList processes),
                   ("quantum", .int quantum)] }

/-- Shallow embedding of the execution-context construction in
`SchedulerGUI.test_custom_code` (src lines 314-316): the validation path
execs with `processes = []`, `quantum = 2` and the same host globals. -/
def test_custom_code_env : ExecEnv :=
  { globalsNames := hostModuleGlobals,
    localsDict := [("processes", .procList []), ("quantum", .int 2)] }

/-- The restricted execution context the spec describes (4.5, section 5),
stated from the spec's words for comparison with the code's namespace
construction: a restricted context exposes no host-module bindings to the
executed code. -/
def RestrictedContext (e : ExecEnv) : Prop :=
  e.globalsNames = []

instance (e : ExecEnv) : Decidable (RestrictedContext e) := by
  unfold RestrictedContext; infer_instance

/-- The configuration the GUI reads from its widgets when a run starts
(src lines 343-349, 404-408): the selected algorithm tag, the quantum, the
core count, and the custom source text. -/
structure Config where
  algo : String
  quantum : Int
  cores : Int
  custom : Submission

/-- The result-holding fields of `SchedulerGUI` assigned by a simulation run
(src lines 343, 357-359). -/
structure SimState where
  current_processes : List Process
  current_algo_name : String
  timeline : List Segment
  num_cores : Int
deriving DecidableEq, Repr

/-- Initial values of the result fields set in `SchedulerGUI.__init__`
(src lines 42-45). -/
def initialSimState : SimState :=
  { current_processes := [], current_algo_name := "N/A", timeline := [],
    num_cores := 1 }

/-- Shallow embedding of the algorithm dispatch that `run_simulation`
(src lines 348-356) and `start_step_mode` (src lines 407-415) both perform on
a copy `self.processes[:]` of the process list: `Custom` goes to the sandbox
path, `Intelligent` asks the predictor, runs its choice and renames the
result, and every other tag goes through `run_algorithm`. -/
def dispatchAlgo (cores : Int) (cfg : Config) (procs : List Process) :
    Except SchedError SchedResult :=
  if cfg.algo = "Custom" then
    run_custom_algorithm cfg.custom procs cfg.quantum
  else if cfg.algo = "Intelligent" then
    (run_algorithm cores (predict_best_algorithm procs) procs
        cfg.quantum).map
      (fun r =>
        (r.1, "Intelligent (" ++ predict_best_algorithm procs ++ ")", r.2.2))
  else run_algorithm cores cfg.algo procs cfg.quantum

/-- Shallow embedding of `SchedulerGUI.run_simulation` (src lines 341-370):
`num_cores` is assigned from the widget first (line 343), then `cores < 1`
raises (line 344), then the dispatch runs; `current_processes`,
`current_algo_name` and `timeline` are assigned only after the scheduling
call returns (lines 357-359), and the metrics are computed from the returned
processes; every exception is caught by the handler at line 366 after the
state is left as it was. -/
def run_simulation (st : SimState) (procs : List Process) (cfg : Config) :
    SimState × Except SchedError (ℚ × ℚ × ℚ × ℚ) :=
  let st1 := { st with num_cores := cfg.cores }
  if cfg.cores < 1 then (st1, .error .InvalidConfiguration)
  else
    match dispatchAlgo cfg.cores cfg procs with
    | .error e => (st1, .error e)
    | .ok r =>
      ({ st1 with current_processes := r.1, current_algo_name := r.2.1,
                  timeline := r.2.2 },
       .ok (calculate_metrics r.1))

/-- The step-mode fields of `SchedulerGUI` (src lines 39-44 and 409-418). -/
structure StepState where
  step_mode : Bool
  current_step : Nat
  step_timeline : List Segment
  step_processes : List Process
  current_algo_name : String
  timeline : List Segment
  num_cores : Int
deriving DecidableEq, Repr

/-- Initial step-mode fields from `SchedulerGUI.__init__` (src lines 39-45);
`step_processes` has no initializer there and is modelled as empty. -/
def initialStepState : StepState :=
  { step_mode := false, current_step := 0, step_timeline := [],
    step_processes := [], current_algo_name := "N/A", timeline := [],
    num_cores := 1 }

/-- Shallow embedding of `SchedulerGUI.step_simulation` (src lines 426-435):
while the cursor is inside the precomputed timeline each call advances it one
step and exposes the prefix of that length; once `step_mode` is off or the
cursor is at or past the end, the call only clears `step_mode` and redisplays
the unchanged results. -/
def step_simulation (s : StepState) : StepState :=
  if s.step_mode = false ∨ s.step_timeline.length ≤ s.current_step then
    { s with step_mode := false }
  else
    { s with current_step := s.current_step + 1,
             timeline := s.step_timeline.take (s.current_step + 1) }

/-- Shallow embedding of `SchedulerGUI.start_step_mode` (src lines 395-424):
stores the core count without any `cores < 1` check (line 404, unlike
`run_simulation`), dispatches exactly as `run_simulation` does, computing the
complete timeline synchronously, initializes the cursor at 0 with the full
timeline stored in both `step_timeline` and `timeline` (lines 416-418), and
immediately performs one `step_simulation` call (line 420); any exception is
caught at line 422 leaving the state as assigned so far. -/
def start_step_mode (s : StepState) (procs : List Process) (cfg : Config) :
    StepState × Except SchedError Unit :=
  let s1 := { s with num_cores := cfg.cores }
  match dispatchAlgo cfg.cores cfg procs with
  | .error e => (s1, .error e)
  | .ok r =>
    (step_simulation
      { s1 with step_mode := true, current_step := 0,
                step_timeline := r.2.2, step_processes := r.1,
                current_algo_name := r.2.1, timeline := r.2.2 },
     .ok ())

/-- Shallow embedding of `SchedulerGUI.add_process` (src lines 205-221): the
entry fields are parsed, `arrival < 0 or burst <= 0` raises `ValueError` (the
spec's `InvalidInput`) before any Process is constructed, and only a
successfully constructed Process is appended; on error the list is left
unchanged. -/
def add_process (procs : List Process) (pid : String)
    (arrival burst priority : Int) : List Process × Except SchedError Unit :=
  if arrival < 0 ∨ burst ≤ 0 then (procs, .error .InvalidInput)
  else
    match Process.make pid arrival burst priority with
    | .ok p => (procs ++ [p], .ok ())
    | .error e => (procs, .error e)

/-- Model of `random.randint(lo, hi)` (both endpoints inclusive) applied to
one raw draw `r` of the underlying generator. -/
def randint (lo hi : Int) (r : Nat) : Int :=
  lo + ((r % (hi - lo + 1).toNat : Nat) : Int)

/-- Loop body of `SchedulerGUI.add_random_processes` (src lines 225-230):
append `count` processes, each constructed as
`Process(f"P{n+1}", randint(0,10), randint(1,10), randint(0,5))` where `n` is
the current list length; the constructor is called with no explicit
validation around it.  `g` is the raw generator stream and `i` the draw
counter. -/
def add_random_go (g : Nat → Nat) :
    Nat → Nat → List Process → Except SchedError (List Process)
  | _, 0, procs => .ok procs
  | i, count + 1, procs =>
    match Process.make ("P" ++ toString (procs.length + 1))
        (randint 0 10 (g (3 * i + 1))) (randint 1 10 (g (3 * i + 2)))
        (randint 0 5 (g (3 * i + 3))) with
    | .ok p => add_random_go g (i + 1) count (procs ++ [p])
    | .error e => .error e

/-- Shallow embedding of `SchedulerGUI.add_random_processes` (src lines
223-232): draws `num_processes = randint(3, 10)` and appends that many random
processes to the current list. -/
def add_random_processes (procs : List Process) (g : Nat → Nat) :
    Except SchedError (List Process) :=
  add_random_go g 0 (randint 3 10 (g 0)).toNat procs

/-- Loop of `SchedulerGUI.load_config` (src lines 254-255): append
`Process(pid, arrival, burst, priority)` for each loaded record, with no
validation in the loop itself — only the constructor's own validation
applies; a constructor failure aborts the loop, keeping the records admitted
so far. -/
def load_config_go :
    List (String × Int × Int × Int) → List Process →
    List Process × Except SchedError Unit
  | [], acc => (acc, .ok ())
  | r :: rs, acc =>
    match Process.make r.1 r.2.1 r.2.2.1 r.2.2.2 with
    | .ok p => load_config_go rs (acc ++ [p])
    | .error e => (acc, .error e)

/-- Shallow embedding of `SchedulerGUI.load_config` (src lines 248-257): the
current list is cleared, then each loaded `{pid, arrival, burst, priority}`
record is turned into a Process and appended. -/
def load_config (records : List (String × Int × Int × Int)) :
    List Process × Except SchedError Unit :=
  load_config_go records []

/-- Modelled from the spec: heap picture of one simulation call, for the
aliasing behaviour the pure embedding cannot express.  The GUI holds
references (Python object identities) into a heap of Process records;
`self.processes[:]` (src line 350) copies the reference list only, and the
scheduling engine — in `cpu_scheduler_algorithms`, not under `src/` —
operates on an internal copy of the records (spec section 3, Lifecycle), so
the finalized results are freshly allocated records appended to the heap and
the records behind the caller's references are never written. -/
def run_simulation_heap (heap : List Process) (refs : List Nat)
    (st : SimState) (cfg : Config) :
    List Process × (SimState × Except SchedError (ℚ × ℚ × ℚ × ℚ)) :=
  let snapshot := refs.filterMap (fun r => heap.get? r)
  let result := run_simulation st snapshot cfg
  match result.2 with
  | .ok _ => (heap ++ (result.1).current_processes, result)
  | .error _ => (heap, result)

/-- The example process set of spec section 8: `P1(arr=0,burst=5,prio=1)`,
`P2(arr=1,burst=3,prio=2)`, `P3(arr=2,burst=8,prio=1)`, as freshly
constructed Process records. -/
def exampleProcs : List Process :=
  [{ pid := "P1", arrival_time := 0, burst_time := 5, priority := 1,
     remaining_time := 5, start_time := none, end_time := none,
     waiting_time := 0, turnaround_time := 0 },
   { pid := "P2", arrival_time := 1, burst_time := 3, priority := 2,
     remaining_time := 3, start_time := none, end_time := none,
     waiting_time := 0, turnaround_time := 0 },
   { pid := "P3", arrival_time := 2, burst_time := 8, priority := 1,
     remaining_time := 8, start_time := none, end_time := none,
     waiting_time := 0, turnaround_time := 0 }]

/-- The default custom-algorithm template preloaded in the GUI text box
(src line 292): it defines `custom_scheduler(processes, quantum)` returning
`(processes, "Custom", [])`, and its execution raises nothing. -/
def templateSubmission : Submission :=
  { defs := [("custom_scheduler", fun p _ => .ok (p, "Custom", []))],
    raisesOnExec := false }

/-- A custom submission that execs fine but defines no `custom_scheduler`
entry point (for instance the source text `x = 1`). -/
def noEntrySubmission : Submission :=
  { defs := [], raisesOnExec := false }

/-! Helper lemmas. -/

theorem make_error_of_invalid (pid : String) (a b pr : Int)
    (h : a < 0 ∨ b ≤ 0) :
    Process.make pid a b pr = .error .InvalidInput := by
  unfold Process.make
  rw [if_pos h]

theorem make_ok_of_valid (pid : String) (a b pr : Int)
    (h1 : 0 ≤ a) (h2 : 0 < b) :
    Process.make pid a b pr =
      .ok { pid := pid, arrival_time := a, burst_time := b, priority := pr,
            remaining_time := b, start_time := none, end_time := none,
            waiting_time := 0, turnaround_time := 0 } := by
  unfold Process.make
  rw [if_neg (by omega)]

theorem make_ok_valid {pid : String} {a b pr : Int} {p : Process}
    (h : Process.make pid a b pr = .ok p) : ValidProcess p := by
  unfold Process.make at h
  by_cases hc : a < 0 ∨ b ≤ 0
  · rw [if_pos hc] at h
    exact absurd h (by simp)
  · rw [if_neg hc] at h
    push_neg at hc
    injection h with h
    subst h
    exact ⟨hc.1, hc.2⟩

theorem randint_le_and_ge (lo hi : Int) (r : Nat) (h : lo ≤ hi) :
    lo ≤ randint lo hi r ∧ randint lo hi r ≤ hi := by
  unfold randint
  have hk : ((hi - lo + 1).toNat : Int) = hi - lo + 1 :=
    Int.toNat_of_nonneg (by omega)
  have hpos : 0 < (hi - lo + 1).toNat := by omega
  have hmod : r % (hi - lo + 1).toNat < (hi - lo + 1).toNat :=
    Nat.mod_lt r hpos
  have h2 : ((r % (hi - lo + 1).toNat : Nat) : Int) <
      ((hi - lo + 1).toNat : Int) := by exact_mod_cast hmod
  have h3 : (0 : Int) ≤ ((r % (hi - lo + 1).toNat : Nat) : Int) :=
    Int.natCast_nonneg _
  omega

/-- The field bounds that every process built by the random generator
satisfies (src lines 227-229). -/
def RandomBounds (p : Process) : Prop :=
  0 ≤ p.arrival_time ∧ p.arrival_time ≤ 10 ∧ 1 ≤ p.burst_time ∧
  p.burst_time ≤ 10 ∧ 0 ≤ p.priority ∧ p.priority ≤ 5

/-- The process record the random generator builds on iteration `i` when
the list currently holds `len` processes. -/
def randProc (g : Nat → Nat) (i len : Nat) : Process :=
  { pid := "P" ++ toString (len + 1),
    arrival_time := randint 0 10 (g (3 * i + 1)),
    burst_time := randint 1 10 (g (3 * i + 2)),
    priority := randint 0 5 (g (3 * i + 3)),
    remaining_time := randint 1 10 (g (3 * i + 2)),
    start_time := none, end_time := none,
    waiting_time := 0, turnaround_time := 0 }

theorem add_random_go_spec (g : Nat → Nat) :
    ∀ (c i : Nat) (procs : List Process),
    ∃ news, add_random_go g i c procs = .ok (procs ++ news) ∧
      news.length = c ∧ List.Forall RandomBounds news := by
  intro c
  induction c with
  | zero =>
    intro i procs
    exact ⟨[], by simp [add_random_go], rfl, trivial⟩
  | succ c ih =>
    intro i procs
    have ha := randint_le_and_ge 0 10 (g (3 * i + 1)) (by omega)
    have hb := randint_le_and_ge 1 10 (g (3 * i + 2)) (by omega)
    have hp := randint_le_and_ge 0 5 (g (3 * i + 3)) (by omega)
    have hmk : Process.make ("P" ++ toString (procs.length + 1))
        (randint 0 10 (g (3 * i + 1))) (randint 1 10 (g (3 * i + 2)))
        (randint 0 5 (g (3 * i + 3))) = .ok (randProc g i procs.length) :=
      make_ok_of_valid ("P" ++ toString (procs.length + 1))
        (randint 0 10 (g (3 * i + 1))) (randint 1 10 (g (3 * i + 2)))
        (randint 0 5 (g (3 * i + 3))) ha.1 (by omega)
    obtain ⟨news, hgo, hlen, hfor⟩ :=
      ih (i + 1) (procs ++ [randProc g i procs.length])
    refine ⟨randProc g i procs.length :: news, ?_, ?_, ?_⟩
    · simp only [add_random_go, hmk, hgo]
      rw [List.append_assoc]
      rfl
    · simp [hlen]
    · rw [List.forall_cons]
      exact ⟨⟨ha.1, ha.2, hb.1, hb.2, hp.1, hp.2⟩, hfor⟩

/-- C10: every Process constructed by the random-process generator satisfies
the validity invariant without any explicit validation around the
constructor: arrival_time lies in [0,10], burst_time in [1,10] and priority
in [0,5]; and each invocation appends between 3 and 10 such processes to the
current set. -/
theorem claim_C10 : ∀ (procs : List Process) (g : Nat → Nat),
    ∃ news, add_random_processes procs g = .ok (procs ++ news) ∧
      3 ≤ news.length ∧ news.length ≤ 10 ∧
      List.Forall RandomBounds news ∧ List.Forall ValidProcess news := by
  intro procs g
  obtain ⟨news, hgo, hlen, hfor⟩ :=
    add_random_go_spec g (randint 3 10 (g 0)).toNat 0 procs
  have hnum := randint_le_and_ge 3 10 (g 0) (by omega)
  refine ⟨news, hgo, by omega, by omega, hfor, ?_⟩
  rw [List.forall_iff_forall_mem] at hfor ⊢
  intro p hm
  have hb := hfor p hm
  exact ⟨hb.1, by have := hb.2.2.1; omega⟩

theorem load_config_go_valid :
    ∀ (rs : List (String × Int × Int × Int)) (acc : List Process),
    (∀ q ∈ acc, ValidProcess q) →
    ∀ p ∈ (load_config_go rs acc).1, ValidProcess p := by
  intro rs
  induction rs with
  | nil =>
    intro acc hacc p hp
    exact hacc p hp
  | cons r rs ih =>
    intro acc hacc p hp
    unfold load_config_go at hp
    cases hmk : Process.make r.1 r.2.1 r.2.2.1 r.2.2.2 with
    | ok q =>
      rw [hmk] at hp
      refine ih (acc ++ [q]) ?_ p hp
      intro x hx
      rcases List.mem_append.mp hx with hx | hx
      · exact hacc x hx
      · rw [List.mem_singleton.mp hx]
        exact make_ok_valid hmk
    | error e =>
      rw [hmk] at hp
      exact hacc p hp

/-- C5: constructing a Process with arrival_time < 0 or burst_time ≤ 0 fails
with InvalidInput, and this constructor validation is the sole admission
control: through each of the three entry paths — manual add, random
generation and loading a saved configuration — only processes satisfying the
validity invariant ever enter the current set. -/
theorem claim_C5 :
    (∀ (pid : String) (a b pr : Int), a < 0 ∨ b ≤ 0 →
        Process.make pid a b pr = .error .InvalidInput) ∧
    (∀ (procs : List Process) (pid : String) (a b pr : Int),
        (∀ q ∈ procs, ValidProcess q) →
        ∀ p ∈ (add_process procs pid a b pr).1, ValidProcess p) ∧
    (∀ (procs : List Process) (g : Nat → Nat) (l : List Process),
        (∀ q ∈ procs, ValidProcess q) →
        add_random_processes procs g = .ok l →
        ∀ p ∈ l, ValidProcess p) ∧
    (∀ (records : List (String × Int × Int × Int)),
        ∀ p ∈ (load_config records).1, ValidProcess p) := by
  refine ⟨make_error_of_invalid, ?_, ?_, ?_⟩
  · intro procs pid a b pr hvalid p hp
    unfold add_process at hp
    by_cases hc : a < 0 ∨ b ≤ 0
    · rw [if_pos hc] at hp
      exact hvalid p hp
    · rw [if_neg hc] at hp
      push_neg at hc
      rw [make_ok_of_valid pid a b pr hc.1 hc.2] at hp
      simp only [List.mem_append] at hp
      rcases hp with hp | hp
      · exact hvalid p hp
      · rw [List.mem_singleton.mp hp]
        exact ⟨hc.1, hc.2⟩
  · intro procs g l hvalid hrun p hp
    obtain ⟨news, hgo, hlen, hfor⟩ :=
      add_random_go_spec g (randint 3 10 (g 0)).toNat 0 procs
    unfold add_random_processes at hrun
    rw [hgo] at hrun
    injection hrun with hrun
    subst hrun
    rcases List.mem_append.mp hp with hp | hp
    · exact hvalid p hp
    · have hb := List.forall_iff_forall_mem.mp hfor p hp
      exact ⟨hb.1, by have := hb.2.2.1; omega⟩
  · intro records p hp
    exact load_config_go_valid records [] (by simp) p hp

/-- The process the manual-add path appends for the entries
`("P9", 0, 3, 1)`. -/
def addedProc : Process :=
  { pid := "P9", arrival_time := 0, burst_time := 3, priority := 1,
    remaining_time := 3, start_time := none, end_time := none,
    waiting_time := 0, turnaround_time := 0 }

/-- The process the config loader constructs for the record
`("A", 1, 2, 3)`. -/
def loadedProc : Process :=
  { pid := "A", arrival_time := 1, burst_time := 2, priority := 3,
    remaining_time := 2, start_time := none, end_time := none,
    waiting_time := 0, turnaround_time := 0 }

/-- A degenerate raw generator stream that always outputs 0. -/
def zeroG : Nat → Nat := fun _ => 0

/-- The list the random generator produces from the all-zero stream: three
processes with arrival 0, burst 1, priority 0. -/
def exampleRandList : List Process :=
  [randProc zeroG 0 0, randProc zeroG 1 1, randProc zeroG 2 2]

theorem claim_C5_witness :
    Process.make "X" (-1) 5 0 = .error .InvalidInput ∧
    ValidProcess addedProc ∧
    ValidProcess (randProc zeroG 0 0) ∧
    ValidProcess loadedProc :=
  ⟨claim_C5.1 "X" (-1) 5 0 (by decide),
   claim_C5.2.1 [] "P9" 0 3 1 (by simp) addedProc (by decide),
   claim_C5.2.2.1 [] zeroG exampleRandList (by simp) (by decide)
     (randProc zeroG 0 0) (by decide),
   claim_C5.2.2.2 [("A", 1, 2, 3)] loadedProc (by decide)⟩

/-- C1, counterexample: the execution context the code hands to `exec` is
not restricted — the globals mapping passed on both the execution path and
the validation path is the host module's own namespace, so the claim that
custom code runs with no access to the host process fails already at the
namespace construction. -/
theorem claim_C1_counterexample :
    ¬ RestrictedContext (run_custom_algorithm_env exampleProcs 2) ∧
    ¬ RestrictedContext test_custom_code_env := by
  constructor <;> · intro h; simp [RestrictedContext] at h;
                    exact absurd h (by decide)

/-- C1, amended: both sandbox paths exec the submitted source with the host
module's global namespace — including the file-system-capable `json`,
`filedialog` and `logging` bindings — plus a locals dict built afresh from
the call's own arguments; only that locals dict is per-call, the globals
mapping is the host's shared one, so the context is not restricted and is
not fully discarded between runs. -/
theorem claim_C1 : ∀ (procs : List Process) (q : Int),
    (run_custom_algorithm_env procs q).globalsNames = hostModuleGlobals ∧
    "json" ∈ (run_custom_algorithm_env procs q).globalsNames ∧
    "filedialog" ∈ (run_custom_algorithm_env procs q).globalsNames ∧
    "logging" ∈ (run_custom_algorithm_env procs q).globalsNames ∧
    (run_custom_algorithm_env procs q).localsDict =
      [("processes", PyVal.procList procs), ("quantum", PyVal.int q)] ∧
    test_custom_code_env.globalsNames = hostModuleGlobals := by
  intro procs q
  refine ⟨rfl, ?_, ?_, ?_, rfl, rfl⟩ <;>
    · simp only [run_custom_algorithm_env]
      decide

/-- C3, counterexample: a submission that defines no `custom_scheduler`
(such as the source text `x = 1`), fed to the execution path with the real
process set, is not rejected — the code substitutes the default
`lambda p, q: (p, "Custom", [])`, returning the untouched processes instead
of raising `SandboxValidationError`. -/
theorem claim_C3_counterexample :
    run_custom_algorithm noEntrySubmission exampleProcs 2 =
      .ok (exampleProcs, "Custom", []) ∧
    run_custom_algorithm noEntrySubmission exampleProcs 2 ≠
      .error .SandboxValidationError := by
  exact ⟨rfl, by decide⟩

/-- C3, amended: the validation path does fail with
`SandboxValidationError` on a submission missing the `custom_scheduler`
entry point, but the execution path is not gated by validation: it execs the
submission with the real process set in scope and, when the entry point is
missing, substitutes the default result `(processes, "Custom", [])` instead
of failing. -/
theorem claim_C3 : ∀ (sub : Submission) (procs : List Process) (q : Int),
    sub.raisesOnExec = false →
    sub.defs.find? (fun d => d.1 = "custom_scheduler") = none →
    test_custom_code sub = .error .SandboxValidationError ∧
    run_custom_algorithm sub procs q = .ok (procs, "Custom", []) := by
  intro sub procs q hr hf
  constructor
  · unfold test_custom_code
    rw [hr, hf]
    rfl
  · unfold run_custom_algorithm
    rw [hr, hf]
    rfl

theorem claim_C3_witness :
    test_custom_code noEntrySubmission = .error .SandboxValidationError ∧
    run_custom_algorithm noEntrySubmission exampleProcs 4 =
      .ok (exampleProcs, "Custom", []) :=
  claim_C3 noEntrySubmission exampleProcs 4 rfl rfl

theorem multi_core_error_lt1 (ps : List Process) (cores : Int)
    (alg : List Process → Except SchedError SchedResult)
    (h : cores < 1) :
    multi_core_scheduler ps cores alg = .error .InvalidConfiguration := by
  unfold multi_core_scheduler
  rw [if_pos h]

theorem run_algorithm_error_lt1 (cores : Int) (algo : String)
    (ps : List Process) (q : Int) (h : cores < 1) :
    run_algorithm cores algo ps q = .error .InvalidConfiguration := by
  unfold run_algorithm
  split_ifs <;> exact multi_core_error_lt1 _ _ _ h

theorem dispatchAlgo_error_lt1 (cfg : Config) (procs : List Process)
    (h : cfg.cores < 1) (halgo : cfg.algo ≠ "Custom") :
    dispatchAlgo cfg.cores cfg procs = .error .InvalidConfiguration := by
  unfold dispatchAlgo
  rw [if_neg halgo]
  by_cases hI : cfg.algo = "Intelligent"
  · rw [if_pos hI, run_algorithm_error_lt1 _ _ _ _ h]
    rfl
  · rw [if_neg hI]
    exact run_algorithm_error_lt1 _ _ _ _ h

/-- The configuration of the step-mode counterexample: the Custom algorithm
with the GUI's default template and a core count of 0. -/
def cfgCustomZero : Config :=
  { algo := "Custom", quantum := 2, cores := 0, custom := templateSubmission }

/-- A valid FCFS configuration on one core, used by several witnesses. -/
def cfgFcfs1 : Config :=
  { algo := "FCFS", quantum := 2, cores := 1, custom := templateSubmission }

/-- The FCFS configuration with an invalid core count of 0. -/
def cfgFcfsZero : Config :=
  { algo := "FCFS", quantum := 2, cores := 0, custom := templateSubmission }

/-- C4, counterexample: `start_step_mode` performs no core-count check, and
its Custom path never reaches the dispatcher, so starting step mode with the
Custom algorithm and 0 cores succeeds and produces finalized results instead
of failing with `InvalidConfiguration`. -/
theorem claim_C4_counterexample :
    (start_step_mode initialStepState exampleProcs cfgCustomZero).2 =
      .ok () ∧
    (start_step_mode initialStepState exampleProcs
        cfgCustomZero).1.step_processes = exampleProcs ∧
    (start_step_mode initialStepState exampleProcs
        cfgCustomZero).1.current_algo_name = "Custom" := by
  exact ⟨rfl, rfl, rfl⟩

/-- C4, amended: `run_simulation` rejects a core count below 1 with
`InvalidConfiguration` before any scheduling, for every algorithm, leaving
the result fields untouched; `start_step_mode` has no core-count check of
its own — for every built-in algorithm the multi-core dispatcher rejects the
bad core count, but the Custom path performs no core-count validation at
all. -/
theorem claim_C4 :
    (∀ (st : SimState) (procs : List Process) (cfg : Config),
        cfg.cores < 1 →
        (run_simulation st procs cfg).2 = .error .InvalidConfiguration ∧
        (run_simulation st procs cfg).1.current_processes =
          st.current_processes) ∧
    (∀ (s : StepState) (procs : List Process) (cfg : Config),
        cfg.cores < 1 → cfg.algo ≠ "Custom" →
        (start_step_mode s procs cfg).2 =
          .error .InvalidConfiguration) := by
  constructor
  · intro st procs cfg h
    unfold run_simulation
    rw [if_pos h]
    exact ⟨rfl, rfl⟩
  · intro s procs cfg h halgo
    unfold start_step_mode
    rw [dispatchAlgo_error_lt1 cfg procs h halgo]

theorem claim_C4_witness :
    (run_simulation initialSimState exampleProcs cfgFcfsZero).2 =
      .error .InvalidConfiguration ∧
    (start_step_mode initialStepState exampleProcs cfgFcfsZero).2 =
      .error .InvalidConfiguration :=
  ⟨(claim_C4.1 initialSimState exampleProcs cfgFcfsZero (by decide)).1,
   claim_C4.2 initialStepState exampleProcs cfgFcfsZero (by decide)
     (by decide)⟩

/-- C9: a failed simulation run is atomic with respect to the visible result
state — whenever `run_simulation` reports any error, the stored
`current_processes`, `current_algo_name` and `timeline` are exactly what
they were before the call, because the code assigns them only after the
scheduling call returns. -/
theorem claim_C9 : ∀ (st : SimState) (procs : List Process) (cfg : Config)
    (e : SchedError),
    (run_simulation st procs cfg).2 = .error e →
    (run_simulation st procs cfg).1.current_processes =
      st.current_processes ∧
    (run_simulation st procs cfg).1.current_algo_name =
      st.current_algo_name ∧
    (run_simulation st procs cfg).1.timeline = st.timeline := by
  intro st procs cfg e herr
  unfold run_simulation at herr ⊢
  by_cases h1 : cfg.cores < 1
  · rw [if_pos h1]
    exact ⟨rfl, rfl, rfl⟩
  · rw [if_neg h1] at herr ⊢
    cases hd : dispatchAlgo cfg.cores cfg procs with
    | error e2 => exact ⟨rfl, rfl, rfl⟩
    | ok r =>
      rw [hd] at herr
      simp at herr

theorem claim_C9_witness :
    (run_simulation initialSimState exampleProcs cfgFcfsZero).1.current_processes =
      initialSimState.current_processes ∧
    (run_simulation initialSimState exampleProcs cfgFcfsZero).1.current_algo_name =
      initialSimState.current_algo_name ∧
    (run_simulation initialSimState exampleProcs cfgFcfsZero).1.timeline =
      initialSimState.timeline :=
  claim_C9 initialSimState exampleProcs cfgFcfsZero .InvalidConfiguration
    (by decide)

/-- C2: a simulation run operates on an internal copy of the processes —
whatever the configuration and whether the run succeeds or fails, the heap
records behind the caller's references are unchanged after the call: the
prefix of the heap the caller can reach is exactly what it was, so
arrival_time, burst_time, priority and the initially-unset derived fields of
the caller's records keep their values. -/
theorem claim_C2 : ∀ (heap : List Process) (refs : List Nat)
    (st : SimState) (cfg : Config),
    (run_simulation_heap heap refs st cfg).1.take heap.length = heap ∧
    ∀ i, i < heap.length →
      (run_simulation_heap heap refs st cfg).1.get? i = heap.get? i := by
  intro heap refs st cfg
  simp only [run_simulation_heap]
  cases hres :
      (run_simulation st (refs.filterMap (fun r => heap.get? r)) cfg).2 with
  | ok m =>
    constructor
    · exact List.take_left heap _
    · intro i hi
      exact List.get?_append hi
  | error e =>
    constructor
    · exact List.take_length heap
    · intro i hi
      rfl

theorem claim_C2_witness :
    (run_simulation_heap exampleProcs [0, 1, 2] initialSimState
        cfgFcfs1).1.take exampleProcs.length = exampleProcs ∧
    (run_simulation_heap exampleProcs [0, 1, 2] initialSimState
        cfgFcfs1).1.get? 0 = exampleProcs.get? 0 :=
  ⟨(claim_C2 exampleProcs [0, 1, 2] initialSimState cfgFcfs1).1,
   (claim_C2 exampleProcs [0, 1, 2] initialSimState cfgFcfs1).2 0
     (by decide)⟩

theorem mapExcept_error {α β : Type} (f : α → Except SchedError β)
    (l : List α) (e : SchedError) (hl : l ≠ [])
    (hf : ∀ a ∈ l, f a = .error e) :
    mapExcept f l = .error e := by
  cases l with
  | nil => exact absurd rfl hl
  | cons x xs =>
    have hx := hf x (List.mem_cons_self x xs)
    unfold mapExcept
    rw [hx]

theorem partitionRR_length (ps : List Process) (n : Nat) :
    (partitionRR ps n).length = n := by
  simp [partitionRR]

theorem multi_core_error_alg (ps : List Process) (cores : Int)
    (alg : List Process → Except SchedError SchedResult) (e : SchedError)
    (h : ¬ cores < 1) (halg : ∀ l, alg l = .error e) :
    multi_core_scheduler ps cores alg = .error e := by
  unfold multi_core_scheduler
  rw [if_neg h]
  rw [mapExcept_error alg (partitionRR ps cores.toNat) e ?_
      (fun a _ => halg a)]
  intro hc
  have hlen := partitionRR_length ps cores.toNat
  rw [hc] at hlen
  simp at hlen
  omega

/-- C6: a quantum ≤ 0 handed to the Round Robin or MLFQ path of
`run_algorithm` fails with `InvalidConfiguration` for every core count and
process set (for a valid core count the scheduler itself rejects the
quantum; an invalid core count is rejected with the same error), and for any
positive quantum the MLFQ level quanta `[q, 2q, 4q]` the GUI passes are
strictly increasing with level 0 smallest. -/
theorem claim_C6 :
    (∀ (cores : Int) (ps : List Process) (q : Int), q ≤ 0 →
        run_algorithm cores "RR" ps q = .error .InvalidConfiguration) ∧
    (∀ (cores : Int) (ps : List Process) (q : Int), q ≤ 0 →
        run_algorithm cores "MLFQ" ps q = .error .InvalidConfiguration) ∧
    (∀ q : Int, 0 < q →
        List.Chain' (fun a b => a < b) (mlfqLevels q) ∧
        (mlfqLevels q).headD 0 = q) := by
  refine ⟨?_, ?_, ?_⟩
  · intro cores ps q hq
    by_cases h1 : cores < 1
    · exact run_algorithm_error_lt1 _ _ _ _ h1
    · show multi_core_scheduler ps cores (fun p => rr_scheduler p q) =
        .error .InvalidConfiguration
      refine multi_core_error_alg _ _ _ _ h1 ?_
      intro l
      unfold rr_scheduler
      rw [if_pos hq]
  · intro cores ps q hq
    by_cases h1 : cores < 1
    · exact run_algorithm_error_lt1 _ _ _ _ h1
    · show multi_core_scheduler ps cores
          (fun p => mlfq_scheduler p (mlfqLevels q)) =
        .error .InvalidConfiguration
      refine multi_core_error_alg _ _ _ _ h1 ?_
      intro l
      unfold mlfq_scheduler
      rw [if_pos]
      refine Or.inr ?_
      simp [mlfqLevels]
      exact Or.inl hq
  · intro q hq
    constructor
    · simp [mlfqLevels, List.chain'_cons, List.chain'_singleton]
      omega
    · rfl

theorem claim_C6_witness :
    run_algorithm 1 "RR" exampleProcs 0 = .error .InvalidConfiguration ∧
    run_algorithm 1 "MLFQ" exampleProcs (-1) =
      .error .InvalidConfiguration ∧
    (List.Chain' (fun a b => a < b) (mlfqLevels 2) ∧
      (mlfqLevels 2).headD 0 = 2) :=
  ⟨claim_C6.1 1 exampleProcs 0 (by decide),
   claim_C6.2.1 1 exampleProcs (-1) (by decide),
   claim_C6.2.2 2 (by decide)⟩

/-- The finalized processes of the spec-section-8 FCFS example:
P1 runs [0,5), P2 [5,8), P3 [8,16). -/
def expectedFinalList : List Process :=
  [{ pid := "P1", arrival_time := 0, burst_time := 5, priority := 1,
     remaining_time := 0, start_time := some 0, end_time := some 5,
     waiting_time := 0, turnaround_time := 5 },
   { pid := "P2", arrival_time := 1, burst_time := 3, priority := 2,
     remaining_time := 0, start_time := some 5, end_time := some 8,
     waiting_time := 4, turnaround_time := 7 },
   { pid := "P3", arrival_time := 2, burst_time := 8, priority := 1,
     remaining_time := 0, start_time := some 8, end_time := some 16,
     waiting_time := 6, turnaround_time := 14 }]

/-- The timeline of the spec-section-8 FCFS example on one core. -/
def expectedTimeline : List Segment :=
  [{ core_id := 0, pid := "P1", interval_start := 0, interval_end := 5 },
   { core_id := 0, pid := "P2", interval_start := 5, interval_end := 8 },
   { core_id := 0, pid := "P3", interval_start := 8, interval_end := 16 }]

/-- The full scheduling result of the FCFS example run. -/
def exampleFcfsResult : SchedResult :=
  (expectedFinalList, "FCFS", expectedTimeline)

/-- C8: on the example input P1(0,5,1), P2(1,3,2), P3(2,8,1) under FCFS with
one core, the finalized results are P1 start 0 end 5, P2 start 5 end 8,
P3 start 8 end 16, and the metrics are avg_waiting 10/3, avg_turnaround
26/3, cpu_utilization 100, throughput 3/16, with makespan 16. -/
theorem claim_C8 :
    run_algorithm 1 "FCFS" exampleProcs 2 =
      .ok (expectedFinalList, "FCFS", expectedTimeline) ∧
    calculate_metrics expectedFinalList =
      (10 / 3, 26 / 3, 100, 3 / 16) ∧
    makespan expectedFinalList = 16 := by
  refine ⟨by decide, ?_, by decide⟩
  unfold calculate_metrics expectedFinalList
  norm_num [makespan, maxEndOf, minArrOf]

theorem step_preserves_timeline_store (s : StepState) :
    (step_simulation s).step_timeline = s.step_timeline ∧
    (step_simulation s).step_processes = s.step_processes := by
  unfold step_simulation
  split <;> exact ⟨rfl, rfl⟩

theorem step_sim_invariant (s : StepState)
    (h : s.timeline = s.step_timeline.take s.current_step ∨
      (s.timeline = s.step_timeline ∧ s.current_step = 0 ∧
        s.step_mode = true)) :
    (step_simulation s).timeline =
      (step_simulation s).step_timeline.take
        (step_simulation s).current_step := by
  unfold step_simulation
  split
  case isTrue hc =>
    rcases h with h | ⟨h1, h2, h3⟩
    · exact h
    · rcases hc with hc | hc
      · rw [h3] at hc
        exact absurd hc (by simp)
      · rw [h2] at hc
        have : s.step_timeline = [] := List.eq_nil_of_length_eq_zero (by omega)
        rw [h1, h2, this]
        rfl
  case isFalse hc =>
    rfl

/-- C7: step mode computes the complete timeline synchronously up front and
stores it; the state after starting and after every advance exposes exactly
the prefix of that fixed timeline of length `current_step`; while the cursor
is inside the timeline an advance increments it by one and exposes the next
longer prefix; and once the cursor has reached the end, advancing is
idempotent — repeated calls return the same final, unchanged state. -/
theorem claim_C7 :
    (∀ (s : StepState) (procs : List Process) (cfg : Config)
        (r : SchedResult),
        dispatchAlgo cfg.cores cfg procs = .ok r →
        (start_step_mode s procs cfg).1.step_timeline = r.2.2 ∧
        (start_step_mode s procs cfg).1.step_processes = r.1) ∧
    (∀ (s : StepState) (procs : List Process) (cfg : Config),
        (start_step_mode s procs cfg).2 = .ok () →
        (start_step_mode s procs cfg).1.timeline =
          (start_step_mode s procs cfg).1.step_timeline.take
            (start_step_mode s procs cfg).1.current_step) ∧
    (∀ s : StepState,
        s.timeline = s.step_timeline.take s.current_step →
        (step_simulation s).step_timeline = s.step_timeline ∧
        (step_simulation s).timeline =
          (step_simulation s).step_timeline.take
            (step_simulation s).current_step) ∧
    (∀ s : StepState, s.step_mode = true →
        s.current_step < s.step_timeline.length →
        (step_simulation s).current_step = s.current_step + 1 ∧
        (step_simulation s).timeline =
          s.step_timeline.take (s.current_step + 1)) ∧
    (∀ s : StepState, s.step_timeline.length ≤ s.current_step →
        step_simulation (step_simulation s) = step_simulation s) := by
  refine ⟨?_, ?_, ?_, ?_, ?_⟩
  · intro s procs cfg r hd
    unfold start_step_mode
    rw [hd]
    exact ⟨(step_preserves_timeline_store _).1,
           (step_preserves_timeline_store _).2⟩
  · intro s procs cfg h
    unfold start_step_mode at h ⊢
    cases hd : dispatchAlgo cfg.cores cfg procs with
    | error e =>
      rw [hd] at h
      exact absurd h (by simp)
    | ok r =>
      exact step_sim_invariant _ (Or.inr ⟨rfl, rfl, rfl⟩)
  · intro s h
    exact ⟨(step_preserves_timeline_store s).1,
           step_sim_invariant s (Or.inl h)⟩
  · intro s hm hlt
    unfold step_simulation
    rw [if_neg ?_]
    · exact ⟨rfl, rfl⟩
    · rintro (hc | hc)
      · rw [hm] at hc
        exact absurd hc (by simp)
      · omega
  · intro s h
    have h1 : step_simulation s = { s with step_mode := false } := by
      unfold step_simulation
      rw [if_pos (Or.inr h)]
    rw [h1]
    unfold step_simulation
    rw [if_pos (Or.inl rfl)]

/-- A mid-run step-mode state: cursor at 1 inside the example timeline, with
the matching prefix exposed. -/
def stepStateMid : StepState :=
  { step_mode := true, current_step := 1,
    step_timeline := expectedTimeline,
    step_processes := expectedFinalList, current_algo_name := "FCFS",
    timeline := expectedTimeline.take 1, num_cores := 1 }

/-- A completed step-mode state: cursor at the end of the example
timeline. -/
def stepStateDone : StepState :=
  { step_mode := true, current_step := 3,
    step_timeline := expectedTimeline,
    step_processes := expectedFinalList, current_algo_name := "FCFS",
    timeline := expectedTimeline, num_cores := 1 }

theorem claim_C7_witness :
    ((start_step_mode initialStepState exampleProcs
        cfgFcfs1).1.step_timeline = exampleFcfsResult.2.2 ∧
      (start_step_mode initialStepState exampleProcs
        cfgFcfs1).1.step_processes = exampleFcfsResult.1) ∧
    (start_step_mode initialStepState exampleProcs cfgFcfs1).1.timeline =
      (start_step_mode initialStepState exampleProcs
          cfgFcfs1).1.step_timeline.take
        (start_step_mode initialStepState exampleProcs
          cfgFcfs1).1.current_step ∧
    ((step_simulation stepStateMid).step_timeline =
        stepStateMid.step_timeline ∧
      (step_simulation stepStateMid).timeline =
        (step_simulation stepStateMid).step_timeline.take
          (step_simulation stepStateMid).current_step) ∧
    ((step_simulation stepStateMid).current_step =
        stepStateMid.current_step + 1 ∧
      (step_simulation stepStateMid).timeline =
        stepStateMid.step_timeline.take (stepStateMid.current_step + 1)) ∧
    step_simulation (step_simulation stepStateDone) =
      step_simulation stepStateDone :=
  ⟨claim_C7.1 initialStepState exampleProcs cfgFcfs1 exampleFcfsResult
      (by decide),
   claim_C7.2.1 initialStepState exampleProcs cfgFcfs1 (by decide),
   claim_C7.2.2.1 stepStateMid (by decide),
   claim_C7.2.2.2.1 stepStateMid rfl (by decide),
   claim_C7.2.2.2.2 stepStateDone (by decide)⟩

end CpuScheduler
